import Mathlib

/-!
Verification development for the Sunshine WebRTC fan-out layer
(`src/webrtc/*`): shallow embedding of the RTP video packetizer
(`video_sender.cpp`), the room/session model (`room.cpp`), the input
router (`input.cpp`), the `set_quality` signaling handler
(`signaling.cpp`) and `Peer::close` (`peer.cpp`), together with
theorems about the behaviour of these operations.

Conventions: C++ machine integers are modelled as `Nat` (with explicit
`% 2^w` where the source wraps) or as `Int` where the source uses a
signed `int`; byte buffers `const uint8_t *data, size_t size` are
modelled as a function `d : Nat → Nat` together with a length `size`;
`std::unordered_map` is modelled as an association list with unique
keys.
-/

namespace Sunshine

/-! ### Wire codec: H.264 / AV1 RTP packetizer (`video_sender.cpp`) -/

/-- Constant `MAX_RTP_PAYLOAD` from `video_sender.h` (line 186). -/
def MAX_RTP_PAYLOAD : Nat := 1200

/-- The 12-byte RTP header built inline in `packetize_h264` /
`packetize_av1`: version 2, payload type 96, marker bit on the last
packet of a frame, big-endian sequence number, timestamp and SSRC. -/
def rtpHeader (marker : Bool) (seq ts ssrc : Nat) : List Nat :=
  [0x80,
   if marker then 96 ||| 0x80 else 96,
   seq / 256 % 256, seq % 256,
   ts / 16777216 % 256, ts / 65536 % 256, ts / 256 % 256, ts % 256,
   ssrc / 16777216 % 256, ssrc / 65536 % 256, ssrc / 256 % 256, ssrc % 256]

/-- The start-code pattern tested by the scan loop in `packetize_h264`
(line 172): `data[i]==0 && data[i+1]==0 && (data[i+2]==1 ||
(data[i+2]==0 && data[i+3]==1))`. -/
def startCodeAt (d : Nat → Nat) (i : Nat) : Bool :=
  d i == 0 && d (i + 1) == 0 &&
    (d (i + 2) == 1 || (d (i + 2) == 0 && d (i + 3) == 1))

/-- The start-code skip at the top of the `packetize_h264` loop
(lines 161-168): if a 3- or 4-byte start code begins at `offset` (and
`offset + 4 <= size`), the NAL payload starts after it. -/
def skipStartCode (d : Nat → Nat) (size offset : Nat) : Nat :=
  if offset + 4 ≤ size ∧ d offset = 0 ∧ d (offset + 1) = 0 then
    if d (offset + 2) = 1 then offset + 3
    else if d (offset + 2) = 0 ∧ d (offset + 3) = 1 then offset + 4
    else offset
  else offset

/-- The scan for the next NAL boundary (lines 170-176):
`for (i = nal_start; i < size - 3; ++i)` looking for `startCodeAt`;
`nal_end = size` when none is found.  Structural recursion on an
explicit fuel; callers pass fuel `≥ size`, which is always enough. -/
def findNalEnd (d : Nat → Nat) (size : Nat) : Nat → Nat → Nat
  | 0, _ => size
  | fuel + 1, i =>
    if i < size - 3 then
      if startCodeAt d i then i else findNalEnd d size fuel (i + 1)
    else size

/-- The FU-A fragmentation loop of `packetize_h264` (lines 219-265).
Returns the emitted RTP packets (as byte lists) and the new sequence
number.  `markerOk` is `nal_end >= size`, precomputed by the caller. -/
def fuaLoop (d : Nat → Nat) (ts ssrc : Nat) (nalStart nalSize : Nat)
    (nri nalType : Nat) (markerOk : Bool) :
    Nat → Nat → Bool → Nat → List (List Nat) × Nat
  | 0, _, _, seq => ([], seq)
  | fuel + 1, fragOffset, first, seq =>
    if fragOffset < nalSize then
      let fragSize := min (MAX_RTP_PAYLOAD - 2) (nalSize - fragOffset)
      let last : Bool := nalSize ≤ fragOffset + fragSize
      let fuHeader := nalType ||| (if first then 0x80 else 0) |||
        (if last then 0x40 else 0)
      let payload := (List.range fragSize).map
        (fun k => d (nalStart + fragOffset + k))
      let pkt := rtpHeader (last && markerOk) seq ts ssrc ++
        [nri ||| 28, fuHeader] ++ payload
      let rest := fuaLoop d ts ssrc nalStart nalSize nri nalType markerOk
        fuel (fragOffset + fragSize) false ((seq + 1) % 65536)
      (pkt :: rest.1, rest.2)
    else ([], seq)

/-- The outer NAL loop of `packetize_h264` (lines 153-269).  One
iteration per NAL unit: skip the start code, scan for the next
boundary, then emit either a single-NAL packet or FU-A fragments.
Fuel-based; callers pass fuel `≥ size + 1`, which is always enough
because `offset` strictly increases. -/
def packetizeH264Loop (d : Nat → Nat) (size ts ssrc : Nat) :
    Nat → Nat → Nat → List (List Nat) × Nat
  | 0, _, seq => ([], seq)
  | fuel + 1, offset, seq =>
    if offset < size then
      let nalStart := skipStartCode d size offset
      let nalEnd := findNalEnd d size size nalStart
      let nalSize := nalEnd - nalStart
      if nalSize ≤ MAX_RTP_PAYLOAD then
        let marker : Bool := size ≤ nalEnd
        let payload := (List.range nalSize).map (fun k => d (nalStart + k))
        let pkt := rtpHeader marker seq ts ssrc ++ payload
        let rest := packetizeH264Loop d size ts ssrc fuel nalEnd
          ((seq + 1) % 65536)
        (pkt :: rest.1, rest.2)
      else
        let nalHeader := d nalStart
        let nalType := nalHeader &&& 0x1F
        let nri := nalHeader &&& 0x60
        let frags := fuaLoop d ts ssrc nalStart nalSize nri nalType
          (size ≤ nalEnd) nalSize 1 true seq
        let rest := packetizeH264Loop d size ts ssrc fuel nalEnd frags.2
        (frags.1 ++ rest.1, rest.2)
    else ([], seq)

/-- Function `VideoSender::packetize_h264`: the RTP packets emitted for one
encoded H.264 frame `d[0..size)`, starting from sequence number
`seq`. -/
def packetize_h264 (d : Nat → Nat) (size ts ssrc seq : Nat) :
    List (List Nat) :=
  (packetizeH264Loop d size ts ssrc (size + 1) 0 seq).1

/-- The AV1 fragmentation loop of `packetize_av1` (lines 434-479). -/
def av1Loop (d : Nat → Nat) (size ts ssrc : Nat) (isKeyframe : Bool) :
    Nat → Nat → Bool → Nat → List (List Nat) × Nat
  | 0, _, _, seq => ([], seq)
  | fuel + 1, offset, first, seq =>
    if offset < size then
      let fragSize := min (MAX_RTP_PAYLOAD - 1) (size - offset)
      let last : Bool := size ≤ offset + fragSize
      let agg := (if first then 0 else 0x80) |||
        (if last then 0 else 0x40) |||
        (if first && isKeyframe then 0x08 else 0)
      let payload := (List.range fragSize).map (fun k => d (offset + k))
      let pkt := rtpHeader last seq ts ssrc ++ [agg] ++ payload
      let rest := av1Loop d size ts ssrc isKeyframe fuel
        (offset + fragSize) false ((seq + 1) % 65536)
      (pkt :: rest.1, rest.2)
    else ([], seq)

/-- Function `VideoSender::packetize_av1` (lines 393-480): a frame that fits in
`MAX_RTP_PAYLOAD - 1` bytes is sent as one packet with aggregation
header `0x10` (or `0x18` on a keyframe) and the marker bit set;
otherwise it is split into chunks. -/
def packetize_av1 (d : Nat → Nat) (size ts ssrc seq : Nat)
    (isKeyframe : Bool) : List (List Nat) :=
  if size ≤ MAX_RTP_PAYLOAD - 1 then
    [rtpHeader true seq ts ssrc ++
      [if isKeyframe then 0x18 else 0x10] ++
      (List.range size).map (fun k => d k)]
  else
    (av1Loop d size ts ssrc isKeyframe (size + 1) 0 true seq).1

/-- The RTP marker bit of an emitted packet: bit 7 of byte 1. -/
def isMarker (p : List Nat) : Bool := p.getD 1 0 &&& 0x80 != 0

/-- A concrete test frame: 4-byte start code, NAL header `0x41`, then
`0xAA` filler bytes. -/
def c3data : Nat → Nat := fun i =>
  if i = 3 then 1 else if i < 4 then 0 else if i = 4 then 0x41 else 0xAA

/-! ### Association lists, modelling `std::unordered_map` -/

/-- Lookup `map.find(k)`: first value stored under key `k`. -/
def alookup {κ α : Type} [DecidableEq κ] : List (κ × α) → κ → Option α
  | [], _ => none
  | (k, v) :: rest, k' => if k = k' then some v else alookup rest k'

/-- In-place mutation of the value stored under key `k`
(`it->second.field = …`). -/
def aupdate {κ α : Type} [DecidableEq κ] : List (κ × α) → κ → (α → α) → List (κ × α)
  | [], _, _ => []
  | (k, v) :: rest, k', f =>
    if k = k' then (k, f v) :: aupdate rest k' f
    else (k, v) :: aupdate rest k' f

/-- Erasure `map.erase(k)`. -/
def aerase {κ α : Type} [DecidableEq κ] : List (κ × α) → κ → List (κ × α)
  | [], _ => []
  | (k, v) :: rest, k' => if k = k' then rest else (k, v) :: aerase rest k'

/-- Assignment `map[k] = v`: replace the stored value, or insert the key. -/
def ainsert {κ α : Type} [DecidableEq κ] (l : List (κ × α)) (k : κ)
    (v : α) : List (κ × α) :=
  if (alookup l k).isSome then aupdate l k (fun _ => v) else l ++ [(k, v)]

/-! ### Room / session model (`room.cpp`, `room.h`) -/

/-- Structure `PlayerInfo` from `room.h` (lines 36-46); `slot` is the integer
value of the `PlayerSlot` enum, `NONE = 0`.  The
`connected_at` timestamp is omitted (wall-clock, unused by any room
operation). -/
structure PlayerInfo where
  peer_id : String
  name : String
  slot : Nat
  is_host : Bool
  is_spectator : Bool
  gamepad_ids : List Int
  can_use_keyboard : Bool
  can_use_mouse : Bool
deriving DecidableEq

/-- The state of a `Room` (`room.h` lines 270-291).  `peers` models
the key set of the `peers_` handle map (the `shared_ptr` values play
no role in room logic). -/
structure Room where
  code : String
  host_peer_id : String
  players : List (String × PlayerInfo)
  peers : List String
  gamepad_slot_owners : List (Int × String)
  peer_gamepad_mappings : List (String × List (Int × Int))
  next_gamepad_slot : Int
  default_keyboard_access : Bool
  default_mouse_access : Bool
deriving DecidableEq

/-- The `Room` constructor (`room.cpp` lines 55-74): the host joins as
Player 1 with both input permissions. -/
def mkRoom (code hostId hostName : String) : Room :=
  { code := code
    host_peer_id := hostId
    players := [(hostId,
      { peer_id := hostId, name := hostName, slot := 1, is_host := true,
        is_spectator := false, gamepad_ids := [],
        can_use_keyboard := true, can_use_mouse := true })]
    peers := [hostId]
    gamepad_slot_owners := []
    peer_gamepad_mappings := []
    next_gamepad_slot := 0
    default_keyboard_access := true
    default_mouse_access := true }

/-- Function `Room::add_spectator` (lines 90-121). -/
def add_spectator (r : Room) (peerId name : String) : Room × Bool :=
  if (alookup r.players peerId).isSome then (r, false)
  else if 16 ≤ r.peers.length then (r, false)
  else
    ({ r with
        players := ainsert r.players peerId
          { peer_id := peerId, name := name, slot := 0, is_host := false,
            is_spectator := true, gamepad_ids := [],
            can_use_keyboard := false, can_use_mouse := false }
        peers := if r.peers.contains peerId then r.peers
          else r.peers ++ [peerId] }, true)

/-- Whether a slot is taken by a non-spectator
(the `used_slots` set built in `Room::next_available_slot`). -/
def slotUsed (r : Room) (s : Nat) : Bool :=
  r.players.any (fun kv => !kv.2.is_spectator && kv.2.slot == s)

/-- Function `Room::next_available_slot` (lines 395-414): the smallest slot in
{1..4} not used by a non-spectator, else `NONE` (0). -/
def next_available_slot (r : Room) : Nat :=
  if !slotUsed r 1 then 1
  else if !slotUsed r 2 then 2
  else if !slotUsed r 3 then 3
  else if !slotUsed r 4 then 4
  else 0

/-- Function `Room::promote_to_player` (lines 123-150). -/
def promote_to_player (r : Room) (peerId : String) : Room × Nat :=
  match alookup r.players peerId with
  | none => (r, 0)
  | some info =>
    if !info.is_spectator then (r, info.slot)
    else
      let slot := next_available_slot r
      if slot = 0 then (r, 0)
      else
        let players' := aupdate r.players peerId
          (fun p => { p with slot := slot, is_spectator := false })
        ({ r with players := players' }, slot)

/-- Function `Room::remove_peer` (lines 152-179): releases every gamepad slot
owned by the peer, erases the membership entries, and reports whether
the host left (the registry then destroys the room). -/
def remove_peer (r : Room) (peerId : String) : Room × Bool :=
  match alookup r.players peerId with
  | none => (r, false)
  | some info =>
    let owners := match alookup r.peer_gamepad_mappings peerId with
      | none => r.gamepad_slot_owners
      | some mapping =>
          mapping.foldl (fun acc bs => aerase acc bs.2) r.gamepad_slot_owners
    ({ r with
        gamepad_slot_owners := owners
        peer_gamepad_mappings := aerase r.peer_gamepad_mappings peerId
        players := aerase r.players peerId
        peers := r.peers.erase peerId }, info.is_host)

/-- The default-insertion `peer_gamepad_mappings_[peer_id]` performed
by `Room::claim_gamepad` (line 192). -/
def ensureMapping (r : Room) (peerId : String) : Room :=
  if (alookup r.peer_gamepad_mappings peerId).isSome then r
  else { r with peer_gamepad_mappings :=
    r.peer_gamepad_mappings ++ [(peerId, [])] }

/-- The room state after a successful fresh claim: the success branch
of `Room::claim_gamepad` (lines 206-209) claims slot
`r1.next_gamepad_slot`, records it in the owner map, the peer's
browser mapping and the player's `gamepad_ids`, and bumps the
counter. -/
def claimSuccess (r1 : Room) (peerId : String) (browserId : Int) : Room :=
  { r1 with
      next_gamepad_slot := r1.next_gamepad_slot + 1
      gamepad_slot_owners := ainsert r1.gamepad_slot_owners
        r1.next_gamepad_slot peerId
      peer_gamepad_mappings := aupdate r1.peer_gamepad_mappings peerId
        (fun m => ainsert m browserId r1.next_gamepad_slot)
      players := aupdate r1.players peerId
        (fun p => { p with gamepad_ids :=
          p.gamepad_ids ++ [r1.next_gamepad_slot] }) }

/-- Function `Room::claim_gamepad` (lines 181-215): spectators and non-members
are rejected; an existing (peer, browser-id) mapping is returned as
is; otherwise a fresh server slot is allocated from the
`next_gamepad_slot_` counter (`fetch_add`, undone with `fetch_sub` when
the counter had already reached 16). -/
def claim_gamepad (r : Room) (peerId : String) (browserId : Int) : Room × Int :=
  match alookup r.players peerId with
  | none => (r, -1)
  | some info =>
    if info.is_spectator then (r, -1)
    else
      let r1 := ensureMapping r peerId
      match alookup ((alookup r1.peer_gamepad_mappings peerId).getD []) browserId with
      | some slot => (r1, slot)
      | none =>
        let server_slot := r1.next_gamepad_slot
        if 16 ≤ server_slot then (r1, -1)
        else (claimSuccess r1 peerId browserId, server_slot)

/-- Erase the first `(browser_id, server_slot)` pair whose value is the
released slot (the `break`-ing loop in `Room::release_gamepad`). -/
def eraseFirstByValue : List (Int × Int) → Int → List (Int × Int)
  | [], _ => []
  | (k, v) :: rest, s => if v = s then rest else (k, v) :: eraseFirstByValue rest s

/-- Function `Room::release_gamepad` (lines 217-250): verifies ownership, then
removes the slot from the owner map, the peer's browser mapping, and
the player's `gamepad_ids` list.  The `next_gamepad_slot_` counter is
not touched. -/
def release_gamepad (r : Room) (peerId : String) (serverSlot : Int) : Room :=
  match alookup r.gamepad_slot_owners serverSlot with
  | none => r
  | some owner =>
    if owner ≠ peerId then r
    else
      { r with
          gamepad_slot_owners := aerase r.gamepad_slot_owners serverSlot
          peer_gamepad_mappings := aupdate r.peer_gamepad_mappings peerId
            (fun m => eraseFirstByValue m serverSlot)
          players := aupdate r.players peerId
            (fun p => { p with gamepad_ids :=
              p.gamepad_ids.filter (fun s => s ≠ serverSlot) }) }

/-- Function `Room::get_gamepad_slot` (lines 252-267). -/
def get_gamepad_slot (r : Room) (peerId : String) (browserId : Int) : Int :=
  match alookup r.peer_gamepad_mappings peerId with
  | none => -1
  | some m =>
    match alookup m browserId with
    | none => -1
    | some s => s

/-- Function `Room::set_keyboard_access` (lines 269-286): the host always keeps
access (returns `true` without change). -/
def set_keyboard_access (r : Room) (peerId : String) (enabled : Bool) : Room × Bool :=
  match alookup r.players peerId with
  | none => (r, false)
  | some info =>
    if info.is_host then (r, true)
    else
      let players' := aupdate r.players peerId
        (fun p => { p with can_use_keyboard := enabled })
      ({ r with players := players' }, true)

/-- Function `Room::set_mouse_access` (lines 288-305). -/
def set_mouse_access (r : Room) (peerId : String) (enabled : Bool) : Room × Bool :=
  match alookup r.players peerId with
  | none => (r, false)
  | some info =>
    if info.is_host then (r, true)
    else
      let players' := aupdate r.players peerId
        (fun p => { p with can_use_mouse := enabled })
      ({ r with players := players' }, true)

/-- Function `Room::can_use_keyboard` (lines 307-317). -/
def can_use_keyboard (r : Room) (peerId : String) : Bool :=
  match alookup r.players peerId with
  | none => false
  | some info => info.can_use_keyboard

/-- Function `Room::can_use_mouse` (lines 319-329). -/
def can_use_mouse (r : Room) (peerId : String) : Bool :=
  match alookup r.players peerId with
  | none => false
  | some info => info.can_use_mouse

/-- The mutating room operations, for stating the reachable-state
invariant. -/
inductive RoomOp where
  | addSpectator (pid name : String)
  | promote (pid : String)
  | removePeer (pid : String)
  | claim (pid : String) (b : Int)
  | release (pid : String) (s : Int)
  | setKeyboard (pid : String) (e : Bool)
  | setMouse (pid : String) (e : Bool)

def applyOp (r : Room) : RoomOp → Room
  | .addSpectator pid n => (add_spectator r pid n).1
  | .promote pid => (promote_to_player r pid).1
  | .removePeer pid => (remove_peer r pid).1
  | .claim pid b => (claim_gamepad r pid b).1
  | .release pid s => release_gamepad r pid s
  | .setKeyboard pid e => (set_keyboard_access r pid e).1
  | .setMouse pid e => (set_mouse_access r pid e).1

/-- An operation keeps the room alive unless it is the host removal:
`remove_peer` returning `true` means "host left", upon which the
registry destroys the room (`room.h` line 131-134, `signaling.cpp`). -/
def opKeepsRoom (r : Room) : RoomOp → Prop
  | .removePeer pid => (remove_peer r pid).2 = false
  | _ => True

/-- The room states reachable during a room's lifetime: the
constructor state, closed under all operations that do not destroy the
room. -/
inductive Reachable : Room → Prop
  | init (code hostId hostName : String) : Reachable (mkRoom code hostId hostName)
  | step (r : Room) (op : RoomOp) : Reachable r → opKeepsRoom r op →
      Reachable (applyOp r op)

/-- The host invariant: the host is a member, flagged `is_host`, with
both input permissions. -/
def HostOk (r : Room) : Prop :=
  ∃ info, alookup r.players r.host_peer_id = some info ∧
    info.is_host = true ∧ info.can_use_keyboard = true ∧
    info.can_use_mouse = true

/-! ### Input router (`input.cpp`) -/

/-- Decoded gamepad state (`input.h`); only `gamepad_id` steers
routing. -/
structure GamepadState where
  gamepad_id : Int
  buttons : Nat
  left_trigger : Nat
  right_trigger : Nat
  left_stick_x : Int
  left_stick_y : Int
  right_stick_x : Int
  right_stick_y : Int
deriving DecidableEq

structure KeyboardEvent where
  key_code : Nat
  modifiers : Nat
  pressed : Bool
deriving DecidableEq

structure MouseMoveEvent where
  is_absolute : Bool
  abs_x : Nat
  abs_y : Nat
  delta_x : Int
  delta_y : Int
deriving DecidableEq

structure MouseButtonEvent where
  button : Nat
  pressed : Bool
deriving DecidableEq

structure MouseScrollEvent where
  delta_x : Int
  delta_y : Int
deriving DecidableEq

/-- Calls into the system-input facade (`input::keyboard`,
`input::mouse_*`, and the gamepad packet handed to
`send_to_input_system`). -/
inductive FacadeCall where
  | gamepad (slot : Int) (st : GamepadState)
  | keyboard (keyCode : Nat) (release : Bool)
  | mouseMoveAbs (x y : Nat)
  | mouseMoveRel (dx dy : Int)
  | mouseButton (button : Nat) (pressed : Bool)
  | mouseScroll (delta : Int) (horizontal : Bool)
deriving DecidableEq

/-- Function `InputHandler::process_keyboard` (lines 156-174).  `room?` is the
result of `RoomManager::find_room_by_peer(peer_id)`; the returned list
holds the facade calls made. -/
def process_keyboard (room? : Option Room) (pid : String)
    (ev : KeyboardEvent) : List FacadeCall :=
  match room? with
  | none => []
  | some r =>
    if can_use_keyboard r pid then
      [FacadeCall.keyboard ev.key_code (!ev.pressed)]
    else []

/-- Function `InputHandler::process_mouse_move` (lines 177-194). -/
def process_mouse_move (room? : Option Room) (pid : String)
    (ev : MouseMoveEvent) : List FacadeCall :=
  match room? with
  | none => []
  | some r =>
    if can_use_mouse r pid then
      if ev.is_absolute then [FacadeCall.mouseMoveAbs ev.abs_x ev.abs_y]
      else [FacadeCall.mouseMoveRel ev.delta_x ev.delta_y]
    else []

/-- Function `InputHandler::process_mouse_button` (lines 196-212); browser
buttons 0/1/2 are shifted to 1/2/3. -/
def process_mouse_button (room? : Option Room) (pid : String)
    (ev : MouseButtonEvent) : List FacadeCall :=
  match room? with
  | none => []
  | some r =>
    if can_use_mouse r pid then
      [FacadeCall.mouseButton (ev.button + 1) ev.pressed]
    else []

/-- Function `InputHandler::process_mouse_scroll` (lines 214-234). -/
def process_mouse_scroll (room? : Option Room) (pid : String)
    (ev : MouseScrollEvent) : List FacadeCall :=
  match room? with
  | none => []
  | some r =>
    if can_use_mouse r pid then
      (if ev.delta_y ≠ 0 then [FacadeCall.mouseScroll ev.delta_y false] else []) ++
      (if ev.delta_x ≠ 0 then [FacadeCall.mouseScroll ev.delta_x true] else [])
    else []

/-- Function `InputHandler::process_gamepad` (lines 126-153): non-members and
spectators are dropped; an unclaimed browser gamepad is auto-claimed;
a failed claim drops the event.  Returns the (possibly updated) room
and the facade calls made. -/
def process_gamepad (room? : Option Room) (pid : String)
    (st : GamepadState) : Option Room × List FacadeCall :=
  match room? with
  | none => (none, [])
  | some r =>
    match alookup r.players pid with
    | none => (some r, [])
    | some info =>
      if info.is_spectator then (some r, [])
      else
        let s := get_gamepad_slot r pid st.gamepad_id
        if 0 ≤ s then (some r, [FacadeCall.gamepad s st])
        else
          let res := claim_gamepad r pid st.gamepad_id
          if res.2 < 0 then (some res.1, [])
          else (some res.1, [FacadeCall.gamepad res.2 st])

/-! ### `set_quality` handler (`signaling.cpp` lines 904-949) -/

/-- Clamping `std::clamp(v, lo, hi)`. -/
def clampInt (v lo hi : Int) : Int := if v < lo then lo else if hi < v then hi else v

inductive QualityReply where
  | errorNotInRoom
  | errorNotHost
  | updated (bitrate framerate width height : Int)
deriving DecidableEq

/-- Function `SignalingServer::handle_set_quality`: host-only; clamps the four
requested values, stores the clamped bitrate into
`config::video.max_bitrate` (passed in and returned as `cfg`), and
replies `quality_updated` with the clamped values (sent to the
requesting peer). -/
def handle_set_quality (room? : Option Room) (pid : String) (cfg : Int)
    (bitrate framerate width height : Int) : Int × QualityReply :=
  match room? with
  | none => (cfg, .errorNotInRoom)
  | some r =>
    if pid ≠ r.host_peer_id then (cfg, .errorNotHost)
    else
      let b := clampInt bitrate 1000 150000
      let f := clampInt framerate 30 240
      let w := clampInt width 640 7680
      let h := clampInt height 480 4320
      (b, .updated b f w h)

/-! ### Peer close (`peer.cpp` lines 552-593) -/

inductive PeerState where
  | connecting
  | connected
  | disconnected
  | failed
deriving DecidableEq

/-- The parts of a `Peer` touched by `Peer::close`. -/
structure Peer where
  id : String
  state : PeerState
  sender_running : Bool
  pc_open : Bool
  has_video_track : Bool
  has_audio_track : Bool
  data_channels : List String
deriving DecidableEq

/-- Function `Peer::close`: the compare-exchange chain flips
CONNECTED→DISCONNECTED or CONNECTING→DISCONNECTED; if neither
succeeds (state already DISCONNECTED or FAILED) the function returns
at once.  Otherwise it stops the sender, closes the connection, and
clears tracks and data channels. -/
def close (p : Peer) : Peer :=
  if p.state = .connected ∨ p.state = .connecting then
    { p with
        state := .disconnected
        sender_running := false
        pc_open := false
        has_video_track := false
        has_audio_track := false
        data_channels := [] }
  else p

/-! ### Concrete fixtures for witnesses -/

/-- A room with host `"h"` and spectator `"s"`. -/
def c4room : Room := (add_spectator (mkRoom "STREAM" "h" "Alice") "s" "Bob").1

/-- The spectator entry created for `"s"` in `c4room`. -/
def c4info : PlayerInfo :=
  { peer_id := "s", name := "Bob", slot := 0, is_host := false,
    is_spectator := true, gamepad_ids := [],
    can_use_keyboard := false, can_use_mouse := false }

/-- A separate fixture room for the input-router witness. -/
def c5room : Room := (add_spectator (mkRoom "INPUTR" "h" "Alice") "s" "Bob").1

/-- A peer already in a terminal state, for the `close` witness. -/
def c10peer : Peer :=
  { id := "p", state := .failed, sender_running := true, pc_open := true,
    has_video_track := true, has_audio_track := true,
    data_channels := ["input"] }

/-! ### Lemmas about the packetizer loops -/

theorem isMarker_rtpHeader (m : Bool) (seq ts ssrc : Nat) (tail : List Nat) :
    isMarker (rtpHeader m seq ts ssrc ++ tail) = m := by
  cases m
  · simp [rtpHeader, isMarker]
    decide
  · simp [rtpHeader, isMarker]

theorem findNalEnd_le (d : Nat → Nat) (size : Nat) :
    ∀ fuel i, findNalEnd d size fuel i ≤ size := by
  intro fuel
  induction fuel with
  | zero => intro i; simp [findNalEnd]
  | succ n ih =>
    intro i
    simp only [findNalEnd]
    split
    · split
      · omega
      · exact ih (i + 1)
    · exact Nat.le_refl size

theorem findNalEnd_cases (d : Nat → Nat) (size : Nat) :
    ∀ fuel i, findNalEnd d size fuel i = size ∨
      (i ≤ findNalEnd d size fuel i ∧ findNalEnd d size fuel i < size - 3 ∧
        startCodeAt d (findNalEnd d size fuel i) = true) := by
  intro fuel
  induction fuel with
  | zero => intro i; left; rfl
  | succ n ih =>
    intro i
    simp only [findNalEnd]
    split
    · split
      · right; refine ⟨Nat.le_refl i, by assumption, by assumption⟩
      · rcases ih (i + 1) with h | ⟨h1, h2, h3⟩
        · left; exact h
        · right; exact ⟨by omega, h2, h3⟩
    · left; rfl

theorem skipStartCode_moves (d : Nat → Nat) (size offset : Nat)
    (h4 : offset + 4 ≤ size) (hsc : startCodeAt d offset = true) :
    skipStartCode d size offset = offset + 3 ∨
    skipStartCode d size offset = offset + 4 := by
  simp only [startCodeAt, Bool.and_eq_true, Bool.or_eq_true, beq_iff_eq] at hsc
  obtain ⟨⟨h0, h1⟩, h2⟩ := hsc
  rcases h2 with h2 | ⟨h2, h3⟩
  · left; simp [skipStartCode, h0, h1, h2, h4]
  · right
    simp only [skipStartCode, h0, h1, h2, h3, h4]
    norm_num

/-- Progress: each outer-loop iteration strictly advances `offset`, for
any buffer contents.  The scan cannot report a NAL boundary at
`offset` itself, because the start-code skip would have fired on the
same pattern. -/
theorem nalEnd_gt (d : Nat → Nat) (size offset : Nat) (h : offset < size) :
    offset < findNalEnd d size size (skipStartCode d size offset) := by
  have hskip : offset ≤ skipStartCode d size offset := by
    simp only [skipStartCode]
    split
    · split
      · omega
      · split <;> omega
    · omega
  rcases findNalEnd_cases d size size (skipStartCode d size offset) with
    hc | ⟨h1, h2, h3⟩
  · omega
  · rcases Nat.lt_or_ge offset (findNalEnd d size size (skipStartCode d size offset)) with
      hlt | hge
    · exact hlt
    · exfalso
      -- then the scan found the pattern exactly at `offset`,
      -- so the skip must have moved, contradiction
      have heq : findNalEnd d size size (skipStartCode d size offset) = offset := by
        omega
      rw [heq] at h2 h3
      have h4 : offset + 4 ≤ size := by omega
      rcases skipStartCode_moves d size offset h4 h3 with hm | hm <;> omega

theorem fuaLoop_stop (d : Nat → Nat) (ts ssrc nalStart nalSize nri nalType : Nat)
    (markerOk : Bool) (fragOffset seq : Nat) (h : nalSize ≤ fragOffset) :
    ∀ fuel first, fuaLoop d ts ssrc nalStart nalSize nri nalType markerOk
      fuel fragOffset first seq = ([], seq) := by
  intro fuel first
  cases fuel with
  | zero => rfl
  | succ n => simp [fuaLoop, Nat.not_lt.mpr h]

/-- The FU-A loop emits at least one fragment; the marker bit is
`markerOk` on the final fragment and clear on all others. -/
theorem fuaLoop_markers (d : Nat → Nat) (ts ssrc nalStart nalSize nri nalType : Nat)
    (markerOk : Bool) :
    ∀ fuel fragOffset first seq, fragOffset < nalSize →
      nalSize - fragOffset ≤ fuel →
      ∃ n, ((fuaLoop d ts ssrc nalStart nalSize nri nalType markerOk
          fuel fragOffset first seq).1.map isMarker) =
        List.replicate n false ++ [markerOk] := by
  intro fuel
  induction fuel with
  | zero => intro fragOffset first seq hlt hfuel; omega
  | succ n ih =>
    intro fragOffset first seq hlt hfuel
    have hM : MAX_RTP_PAYLOAD = 1200 := rfl
    simp only [fuaLoop, if_pos hlt]
    by_cases hlast : nalSize - fragOffset ≤ MAX_RTP_PAYLOAD - 2
    · -- final fragment
      have hmin : min (MAX_RTP_PAYLOAD - 2) (nalSize - fragOffset) =
          nalSize - fragOffset := by omega
      have hstop : nalSize ≤ fragOffset + min (MAX_RTP_PAYLOAD - 2) (nalSize - fragOffset) := by
        omega
      rw [fuaLoop_stop d ts ssrc nalStart nalSize nri nalType markerOk _ _ (by omega)]
      refine ⟨0, ?_⟩
      simp [isMarker_rtpHeader, decide_eq_true (by omega :
        nalSize ≤ fragOffset + min (MAX_RTP_PAYLOAD - 2) (nalSize - fragOffset))]
    · -- intermediate fragment
      have hmin : min (MAX_RTP_PAYLOAD - 2) (nalSize - fragOffset) =
          MAX_RTP_PAYLOAD - 2 := by omega
      have hnotlast : ¬ nalSize ≤ fragOffset + min (MAX_RTP_PAYLOAD - 2) (nalSize - fragOffset) := by
        omega
      obtain ⟨m, hm⟩ := ih (fragOffset + min (MAX_RTP_PAYLOAD - 2) (nalSize - fragOffset))
        false ((seq + 1) % 65536) (by omega) (by omega)
      refine ⟨m + 1, ?_⟩
      simp only [List.map_cons, hm, isMarker_rtpHeader,
        decide_eq_false hnotlast, Bool.false_and]
      rw [List.replicate_succ]
      simp [isMarker_rtpHeader]

theorem h264Loop_stop (d : Nat → Nat) (size ts ssrc offset seq : Nat)
    (h : size ≤ offset) :
    ∀ fuel, packetizeH264Loop d size ts ssrc fuel offset seq = ([], seq) := by
  intro fuel
  cases fuel with
  | zero => rfl
  | succ n => simp [packetizeH264Loop, Nat.not_lt.mpr h]

/-- The outer NAL loop, entered with `offset < size` on a frame of at
least 3 bytes, emits at least one packet; the marker bit is set on the
last packet and on no other. -/
theorem h264Loop_markers (d : Nat → Nat) (size ts ssrc : Nat) :
    ∀ fuel offset seq, offset < size → size - offset ≤ fuel →
      ∃ n, ((packetizeH264Loop d size ts ssrc fuel offset seq).1.map isMarker) =
        List.replicate n false ++ [true] := by
  intro fuel
  induction fuel with
  | zero => intro offset seq hlt hfuel; omega
  | succ m ih =>
    intro offset seq hlt hfuel
    have hM : MAX_RTP_PAYLOAD = 1200 := rfl
    simp only [packetizeH264Loop, if_pos hlt]
    set ns := skipStartCode d size offset with hns
    set ne := findNalEnd d size size ns with hnedef
    have hne_le : ne ≤ size := findNalEnd_le d size size ns
    have hne_gt : offset < ne := nalEnd_gt d size offset hlt
    by_cases hsz : ne - ns ≤ MAX_RTP_PAYLOAD
    · -- single-NAL packet
      rw [if_pos hsz]
      by_cases hend : size ≤ ne
      · rw [h264Loop_stop d size ts ssrc ne ((seq + 1) % 65536) (by omega) m]
        refine ⟨0, ?_⟩
        simp [isMarker_rtpHeader, decide_eq_true hend]
      · obtain ⟨n, hn⟩ := ih ne ((seq + 1) % 65536) (by omega) (by omega)
        refine ⟨n + 1, ?_⟩
        simp only [List.map_cons, hn, isMarker_rtpHeader, decide_eq_false hend]
        rw [List.replicate_succ]
        simp
    · -- FU-A fragments
      rw [if_neg hsz]
      set F := fuaLoop d ts ssrc ns (ne - ns) (d ns &&& 0x60) (d ns &&& 0x1F)
        (decide (size ≤ ne)) (ne - ns) 1 true seq with hF
      obtain ⟨n1, hn1⟩ := fuaLoop_markers d ts ssrc ns (ne - ns)
        (d ns &&& 0x60) (d ns &&& 0x1F) (decide (size ≤ ne)) (ne - ns)
        1 true seq (by omega) (by omega)
      rw [← hF] at hn1
      by_cases hend : size ≤ ne
      · rw [h264Loop_stop d size ts ssrc ne F.2 (by omega) m]
        refine ⟨n1, ?_⟩
        simp only [List.map_append, List.map_nil, List.append_nil, hn1,
          decide_eq_true hend]
      · obtain ⟨n2, hn2⟩ := ih ne F.2 (by omega) (by omega)
        refine ⟨n1 + 1 + n2, ?_⟩
        simp only [List.map_append, hn1, hn2, decide_eq_false hend]
        rw [← List.replicate_succ', ← List.append_assoc, ← List.replicate_add]

/-- Function `packetize_h264` on any frame of at least 3 bytes emits ≥ 1 packet,
with the marker bit exactly on the last one. -/
theorem packetize_h264_markers (d : Nat → Nat) (size ts ssrc seq : Nat)
    (h1 : 0 < size) :
    ∃ n, ((packetize_h264 d size ts ssrc seq).map isMarker) =
      List.replicate n false ++ [true] := by
  exact h264Loop_markers d size ts ssrc (size + 1) 0 seq h1 (by omega)

/-- The AV1 fragmentation loop emits at least one packet; the marker
bit is set on the final fragment and on no other. -/
theorem av1Loop_markers (d : Nat → Nat) (size ts ssrc : Nat) (isKeyframe : Bool) :
    ∀ fuel offset first seq, offset < size → size - offset ≤ fuel →
      ∃ n, ((av1Loop d size ts ssrc isKeyframe fuel offset first seq).1.map isMarker) =
        List.replicate n false ++ [true] := by
  intro fuel
  induction fuel with
  | zero => intro offset first seq hlt hfuel; omega
  | succ m ih =>
    intro offset first seq hlt hfuel
    have hM : MAX_RTP_PAYLOAD = 1200 := rfl
    simp only [av1Loop, if_pos hlt]
    by_cases hlast : size ≤ offset + min (MAX_RTP_PAYLOAD - 1) (size - offset)
    · refine ⟨0, ?_⟩
      have hstop : ∀ fuel' seq', av1Loop d size ts ssrc isKeyframe fuel'
          (offset + min (MAX_RTP_PAYLOAD - 1) (size - offset)) false seq' = ([], seq') := by
        intro fuel' seq'
        cases fuel' with
        | zero => rfl
        | succ k => simp [av1Loop, Nat.not_lt.mpr hlast]
      rw [hstop]
      simp [isMarker_rtpHeader, decide_eq_true hlast]
    · obtain ⟨n, hn⟩ := ih (offset + min (MAX_RTP_PAYLOAD - 1) (size - offset))
        false ((seq + 1) % 65536) (by omega) (by omega)
      refine ⟨n + 1, ?_⟩
      simp only [List.map_cons, hn, isMarker_rtpHeader, decide_eq_false hlast]
      rw [List.replicate_succ]
      simp [isMarker_rtpHeader]

/-- Function `packetize_av1` always emits ≥ 1 packet, with the marker bit
exactly on the last one (for any frame, including the empty one). -/
theorem packetize_av1_markers (d : Nat → Nat) (size ts ssrc seq : Nat)
    (isKeyframe : Bool) :
    ∃ n, ((packetize_av1 d size ts ssrc seq isKeyframe).map isMarker) =
      List.replicate n false ++ [true] := by
  unfold packetize_av1
  split
  · refine ⟨0, ?_⟩
    simp [isMarker_rtpHeader]
  · exact av1Loop_markers d size ts ssrc isKeyframe (size + 1) 0 true seq
      (by simp [MAX_RTP_PAYLOAD] at *; omega) (by omega)

theorem findNalEnd_noPattern (d : Nat → Nat) (size lo : Nat)
    (h : ∀ i, lo ≤ i → startCodeAt d i = false) :
    ∀ fuel i, lo ≤ i → findNalEnd d size fuel i = size := by
  intro fuel
  induction fuel with
  | zero => intro i hi; rfl
  | succ n ih =>
    intro i hi
    simp only [findNalEnd]
    split
    · rw [h i hi]
      exact ih (i + 1) (by omega)
    · rfl

theorem skipStartCode_id (d : Nat → Nat) (size offset : Nat)
    (h : startCodeAt d offset = false) :
    skipStartCode d size offset = offset := by
  simp only [startCodeAt, Bool.and_eq_false_iff, Bool.or_eq_false_iff,
    beq_eq_false_iff_ne, ne_eq] at h
  unfold skipStartCode
  split_ifs with h1 h2 h3
  · exact absurd h (by simp [h1.2.1, h1.2.2, h2])
  · exact absurd h (by simp [h1.2.1, h1.2.2, h2, h3.1, h3.2])
  · rfl
  · rfl

/-- A nonempty frame with no start code anywhere is *not* treated as
malformed by `packetize_h264`: the whole buffer is emitted as a single
single-NAL RTP packet (when it fits in `MAX_RTP_PAYLOAD`). -/
theorem packetize_h264_noStartCode (d : Nat → Nat) (size ts ssrc seq : Nat)
    (h1 : 0 < size) (hsz : size ≤ MAX_RTP_PAYLOAD)
    (hnsc : ∀ i, startCodeAt d i = false) :
    packetize_h264 d size ts ssrc seq =
      [rtpHeader true seq ts ssrc ++ (List.range size).map (fun k => d k)] := by
  unfold packetize_h264
  simp only [packetizeH264Loop, if_pos h1,
    skipStartCode_id d size 0 (hnsc 0),
    findNalEnd_noPattern d size 0 (fun i _ => hnsc i) size 0 (Nat.le_refl 0),
    Nat.sub_zero, Nat.zero_add, if_pos hsz,
    h264Loop_stop d size ts ssrc size ((seq + 1) % 65536) (Nat.le_refl size) size]
  simp [decide_eq_true (Nat.le_refl size)]

/-- Claim C1 (amended): for every H.264 frame of at least 3 bytes and for
every AV1 frame, the packetizer emits at least one RTP packet; the
marker bit is set on the last emitted packet of the frame and on no
other.  (A 0-byte H.264 frame yields no packets — see the
counterexample; 1- and 2-byte frames make the C++ scan loop read out
of bounds, so the embedding is only faithful from 3 bytes up.) -/
theorem C1_packetizer_marker (d : Nat → Nat) (size ts ssrc seq : Nat)
    (e : Nat → Nat) (sizeA tsA ssrcA seqA : Nat) (kf : Bool)
    (h3 : 3 ≤ size) :
    (∃ n, ((packetize_h264 d size ts ssrc seq).map isMarker) =
      List.replicate n false ++ [true]) ∧
    (∃ n, ((packetize_av1 e sizeA tsA ssrcA seqA kf).map isMarker) =
      List.replicate n false ++ [true]) :=
  ⟨packetize_h264_markers d size ts ssrc seq (by omega),
   packetize_av1_markers e sizeA tsA ssrcA seqA kf⟩

/-- Claim C1 counterexample: a 0-byte frame passed to the H.264
packetizer emits zero RTP packets (so neither "at least one packet"
nor "exactly one marker bit" holds for *every* frame). -/
theorem C1_counterexample :
    (packetize_h264 (fun _ => 0) 0 0 0 0).length = 0 := by
  decide

/-- Witness for the amended C1 at a concrete frame. -/
theorem C1_witness :
    3 ≤ 4 ∧
    ((∃ n, ((packetize_h264 (fun _ => 0xAA) 4 0 0 0).map isMarker) =
      List.replicate n false ++ [true]) ∧
    (∃ n, ((packetize_av1 (fun _ => 7) 3 0 0 0 false).map isMarker) =
      List.replicate n false ++ [true])) :=
  ⟨by decide,
   C1_packetizer_marker (fun _ => 0xAA) 4 0 0 0 (fun _ => 7) 3 0 0 0 false
     (by decide)⟩

/-- Claim C2 (amended): a 0-byte frame indeed produces zero packets, but
a frame with no start code is *not* detected as malformed: its bytes
are packetized as if they formed one NAL unit, producing an RTP packet
(no `MalformedFrame` counter exists in the code — `VideoSender::Stats`
has only `frames_sent`, `bytes_sent`, `key_frames_sent`,
`avg_frame_size`). -/
theorem C2_malformed_input (d : Nat → Nat) (ts ssrc seq : Nat)
    (d' : Nat → Nat) (size' ts' ssrc' seq' : Nat) (h3 : 3 ≤ size')
    (hsz : size' ≤ MAX_RTP_PAYLOAD) (hnsc : ∀ i, startCodeAt d' i = false) :
    packetize_h264 d 0 ts ssrc seq = [] ∧
    packetize_h264 d' size' ts' ssrc' seq' =
      [rtpHeader true seq' ts' ssrc' ++ (List.range size').map (fun k => d' k)] :=
  ⟨rfl, packetize_h264_noStartCode d' size' ts' ssrc' seq' (by omega) hsz hnsc⟩

/-- Claim C2 counterexample: a 10-byte buffer of `0xAA` bytes contains no
start code, yet the packetizer emits one RTP packet for it instead of
zero. -/
theorem C2_counterexample :
    ((List.range 10).all (fun i => !(startCodeAt (fun _ => 0xAA) i))) = true ∧
    (packetize_h264 (fun _ => 0xAA) 10 0 0 0).length = 1 := by
  decide

/-- Witness for the amended C2 at a concrete frame. -/
theorem C2_witness :
    (3 ≤ 10 ∧ 10 ≤ MAX_RTP_PAYLOAD ∧
      ∀ i, startCodeAt (fun _ => 0xAA) i = false) ∧
    (packetize_h264 (fun _ => 0) 0 0 0 0 = [] ∧
     packetize_h264 (fun _ => 0xAA) 10 0 0 0 =
       [rtpHeader true 0 0 0 ++ (List.range 10).map (fun k => (fun _ => 0xAA) k)]) :=
  ⟨⟨by decide, by decide, fun i => by simp [startCodeAt]⟩,
   C2_malformed_input (fun _ => 0) 0 0 0 (fun _ => 0xAA) 10 0 0 0
     (by decide) (by decide) (fun i => by simp [startCodeAt])⟩

/-- One-step unfolding of the FU-A loop, usable at any positive fuel. -/
theorem fuaLoop_step (d : Nat → Nat) (ts ssrc nalStart nalSize nri nalType : Nat)
    (markerOk : Bool) (fuel fragOffset : Nat) (first : Bool) (seq : Nat)
    (hlt : fragOffset < nalSize) (hfuel : 0 < fuel) :
    fuaLoop d ts ssrc nalStart nalSize nri nalType markerOk fuel
        fragOffset first seq =
      (let fragSize := min (MAX_RTP_PAYLOAD - 2) (nalSize - fragOffset)
       let last : Bool := nalSize ≤ fragOffset + fragSize
       let fuHeader := nalType ||| (if first then 0x80 else 0) |||
         (if last then 0x40 else 0)
       let payload := (List.range fragSize).map
         (fun k => d (nalStart + fragOffset + k))
       let pkt := rtpHeader (last && markerOk) seq ts ssrc ++
         [nri ||| 28, fuHeader] ++ payload
       let rest := fuaLoop d ts ssrc nalStart nalSize nri nalType markerOk
         (fuel - 1) (fragOffset + fragSize) false ((seq + 1) % 65536)
       (pkt :: rest.1, rest.2)) := by
  cases fuel with
  | zero => omega
  | succ n => simp only [fuaLoop, if_pos hlt, Nat.add_sub_cancel]

/-- One-step unfolding of the outer NAL loop, usable at any positive
fuel. -/
theorem h264Loop_step (d : Nat → Nat) (size ts ssrc fuel offset seq : Nat)
    (hlt : offset < size) (hfuel : 0 < fuel) :
    packetizeH264Loop d size ts ssrc fuel offset seq =
      (let nalStart := skipStartCode d size offset
       let nalEnd := findNalEnd d size size nalStart
       let nalSize := nalEnd - nalStart
       if nalSize ≤ MAX_RTP_PAYLOAD then
         let marker : Bool := size ≤ nalEnd
         let payload := (List.range nalSize).map (fun k => d (nalStart + k))
         let pkt := rtpHeader marker seq ts ssrc ++ payload
         let rest := packetizeH264Loop d size ts ssrc (fuel - 1) nalEnd
           ((seq + 1) % 65536)
         (pkt :: rest.1, rest.2)
       else
         let nalHeader := d nalStart
         let nalType := nalHeader &&& 0x1F
         let nri := nalHeader &&& 0x60
         let frags := fuaLoop d ts ssrc nalStart nalSize nri nalType
           (size ≤ nalEnd) nalSize 1 true seq
         let rest := packetizeH264Loop d size ts ssrc (fuel - 1) nalEnd frags.2
         (frags.1 ++ rest.1, rest.2)) := by
  cases fuel with
  | zero => omega
  | succ n => simp only [packetizeH264Loop, if_pos hlt, Nat.add_sub_cancel]

set_option maxRecDepth 100000 in
/-- Claim C3: boundary behaviour of H.264 fragmentation.  A frame that is
a 4-byte start code followed by a single NAL unit of exactly
`MAX_PAYLOAD = 1200` bytes is emitted as one single-NAL RTP packet
carrying the NAL; the same frame with a 1201-byte NAL is emitted as
exactly two FU-A fragments: both have FU indicator
`(NRI bits of the NAL header) ||| 28` (the F bit of a conformant NAL
header is zero, so this preserves F/NRI), the first fragment's FU
header has the START bit `0x80`, the second's has the END bit `0x40`,
and the marker bit sits on the second fragment. -/
theorem C3_fragmentation_boundary (d e : Nat → Nat)
    (ts ssrc seq tsF ssrcF seqF : Nat)
    (hd0 : d 0 = 0) (hd1 : d 1 = 0) (hd2 : d 2 = 0) (hd3 : d 3 = 1)
    (hdn : ∀ i, 4 ≤ i → startCodeAt d i = false)
    (he0 : e 0 = 0) (he1 : e 1 = 0) (he2 : e 2 = 0) (he3 : e 3 = 1)
    (hen : ∀ i, 4 ≤ i → startCodeAt e i = false) :
    packetize_h264 d 1204 ts ssrc seq =
      [rtpHeader true seq ts ssrc ++
        (List.range 1200).map (fun k => d (4 + k))] ∧
    packetize_h264 e 1205 tsF ssrcF seqF =
      [rtpHeader false seqF tsF ssrcF ++
         [(e 4 &&& 0x60) ||| 28, (e 4 &&& 0x1F) ||| 0x80] ++
         (List.range 1198).map (fun k => e (4 + 1 + k)),
       rtpHeader true ((seqF + 1) % 65536) tsF ssrcF ++
         [(e 4 &&& 0x60) ||| 28, (e 4 &&& 0x1F) ||| 0x40] ++
         (List.range 2).map (fun k => e (4 + 1199 + k))] := by
  constructor
  · have hskip : skipStartCode d 1204 0 = 4 := by
      simp [skipStartCode, hd0, hd1, hd2, hd3]
    have hfind : findNalEnd d 1204 1204 4 = 1204 :=
      findNalEnd_noPattern d 1204 4 hdn 1204 4 (Nat.le_refl 4)
    unfold packetize_h264
    rw [h264Loop_step d 1204 ts ssrc (1204 + 1) 0 seq (by norm_num) (by norm_num)]
    simp only [hskip, hfind]
    norm_num [MAX_RTP_PAYLOAD,
      h264Loop_stop d 1204 ts ssrc 1204 ((seq + 1) % 65536) (Nat.le_refl 1204)]
  · have hskip : skipStartCode e 1205 0 = 4 := by
      simp [skipStartCode, he0, he1, he2, he3]
    have hfind : findNalEnd e 1205 1205 4 = 1205 :=
      findNalEnd_noPattern e 1205 4 hen 1205 4 (Nat.le_refl 4)
    unfold packetize_h264
    rw [h264Loop_step e 1205 tsF ssrcF (1205 + 1) 0 seqF (by norm_num) (by norm_num)]
    simp only [hskip, hfind]
    norm_num [MAX_RTP_PAYLOAD,
      h264Loop_stop e 1205 tsF ssrcF 1205]
    rw [fuaLoop_step e tsF ssrcF 4 1201 (e 4 &&& 96) (e 4 &&& 31) true 1201 1
      true seqF (by norm_num) (by norm_num)]
    norm_num [MAX_RTP_PAYLOAD]
    rw [fuaLoop_step e tsF ssrcF 4 1201 (e 4 &&& 96) (e 4 &&& 31) true 1200 1199
      false ((seqF + 1) % 65536) (by norm_num) (by norm_num)]
    norm_num [MAX_RTP_PAYLOAD,
      fuaLoop_stop e tsF ssrcF 4 1201 (e 4 &&& 96) (e 4 &&& 31) true 1201]

theorem c3data_noStartCode : ∀ i, 4 ≤ i → startCodeAt c3data i = false := by
  intro i hi
  have h3 : ¬ (i = 3) := by omega
  have h4 : ¬ (i < 4) := by omega
  by_cases h5 : i = 4 <;> simp [startCodeAt, c3data, h3, h4, h5]

/-- Witness for C3 at the concrete frame `c3data`. -/
theorem C3_witness :
    c3data 0 = 0 ∧ c3data 3 = 1 ∧
    packetize_h264 c3data 1204 0 0 0 =
      [rtpHeader true 0 0 0 ++
        (List.range 1200).map (fun k => c3data (4 + k))] ∧
    packetize_h264 c3data 1205 0 0 7 =
      [rtpHeader false 7 0 0 ++
         [(c3data 4 &&& 0x60) ||| 28, (c3data 4 &&& 0x1F) ||| 0x80] ++
         (List.range 1198).map (fun k => c3data (4 + 1 + k)),
       rtpHeader true ((7 + 1) % 65536) 0 0 ++
         [(c3data 4 &&& 0x60) ||| 28, (c3data 4 &&& 0x1F) ||| 0x40] ++
         (List.range 2).map (fun k => c3data (4 + 1199 + k))] := by
  have h := C3_fragmentation_boundary c3data c3data 0 0 0 0 0 7
    rfl rfl rfl rfl c3data_noStartCode rfl rfl rfl rfl c3data_noStartCode
  exact ⟨rfl, rfl, h.1, h.2⟩

/-! ### Association-list lemmas -/

theorem alookup_aupdate_self {κ α : Type} [DecidableEq κ]
    (l : List (κ × α)) (k : κ) (f : α → α) :
    alookup (aupdate l k f) k = (alookup l k).map f := by
  induction l with
  | nil => rfl
  | cons kv rest ih =>
    obtain ⟨a, v⟩ := kv
    by_cases h : a = k
    · simp [aupdate, alookup, h]
    · simp [aupdate, alookup, h, ih]

theorem alookup_aupdate_ne {κ α : Type} [DecidableEq κ]
    (l : List (κ × α)) (k k' : κ) (f : α → α) (h : k' ≠ k) :
    alookup (aupdate l k f) k' = alookup l k' := by
  induction l with
  | nil => rfl
  | cons kv rest ih =>
    obtain ⟨a, v⟩ := kv
    by_cases ha : a = k
    · subst ha
      have hk : ¬ a = k' := fun hq => h hq.symm
      simp [aupdate, alookup, hk, ih]
    · by_cases ha' : a = k'
      · subst ha'
        simp [aupdate, alookup, ha, ih]
      · simp [aupdate, alookup, ha, ha', ih]

theorem alookup_aerase_ne {κ α : Type} [DecidableEq κ]
    (l : List (κ × α)) (k k' : κ) (h : k' ≠ k) :
    alookup (aerase l k) k' = alookup l k' := by
  induction l with
  | nil => rfl
  | cons kv rest ih =>
    obtain ⟨a, v⟩ := kv
    by_cases ha : a = k
    · subst ha
      have hk : ¬ a = k' := fun hq => h hq.symm
      simp [aerase, alookup, hk]
    · by_cases ha' : a = k'
      · subst ha'
        simp [aerase, alookup, ha, ih]
      · simp [aerase, alookup, ha, ha', ih]

theorem alookup_append {κ α : Type} [DecidableEq κ]
    (l1 l2 : List (κ × α)) (k : κ) :
    alookup (l1 ++ l2) k =
      if (alookup l1 k).isSome then alookup l1 k else alookup l2 k := by
  induction l1 with
  | nil => simp [alookup]
  | cons kv rest ih =>
    obtain ⟨a, v⟩ := kv
    by_cases ha : a = k <;> simp [alookup, ha, ih]

theorem alookup_ainsert_self {κ α : Type} [DecidableEq κ]
    (l : List (κ × α)) (k : κ) (v : α) :
    alookup (ainsert l k v) k = some v := by
  unfold ainsert
  split
  · next h =>
    rw [alookup_aupdate_self]
    obtain ⟨w, hw⟩ := Option.isSome_iff_exists.mp h
    rw [hw]; rfl
  · next h =>
    rw [alookup_append]
    simp only [h, if_false]
    simp [alookup]

theorem alookup_ainsert_ne {κ α : Type} [DecidableEq κ]
    (l : List (κ × α)) (k k' : κ) (v : α) (h : k' ≠ k) :
    alookup (ainsert l k v) k' = alookup l k' := by
  unfold ainsert
  split
  · exact alookup_aupdate_ne l k k' _ h
  · rw [alookup_append]
    by_cases hs : (alookup l k').isSome
    · simp [hs]
    · simp only [hs, if_false]
      simp only [Option.not_isSome_iff_eq_none] at hs
      have hk : ¬ k = k' := fun hq => h hq.symm
      simp [alookup, hk, hs]

/-! ### `ensureMapping` lemmas -/

theorem ensureMapping_players (r : Room) (pid : String) :
    (ensureMapping r pid).players = r.players := by
  unfold ensureMapping; split <;> rfl

theorem ensureMapping_next (r : Room) (pid : String) :
    (ensureMapping r pid).next_gamepad_slot = r.next_gamepad_slot := by
  unfold ensureMapping; split <;> rfl

theorem ensureMapping_host (r : Room) (pid : String) :
    (ensureMapping r pid).host_peer_id = r.host_peer_id := by
  unfold ensureMapping; split <;> rfl

theorem ensureMapping_getD (r : Room) (pid : String) :
    (alookup (ensureMapping r pid).peer_gamepad_mappings pid).getD [] =
      (alookup r.peer_gamepad_mappings pid).getD [] := by
  unfold ensureMapping
  split
  · rfl
  · next h =>
    simp only [Option.not_isSome_iff_eq_none] at h
    rw [alookup_append]
    simp [h, alookup]

theorem ensureMapping_isSome (r : Room) (pid : String) :
    (alookup (ensureMapping r pid).peer_gamepad_mappings pid).isSome = true := by
  unfold ensureMapping
  split
  · assumption
  · next h =>
    simp only [Option.not_isSome_iff_eq_none] at h
    rw [alookup_append]
    simp [h, alookup]

theorem ensureMapping_of_isSome (r : Room) (pid : String)
    (h : (alookup r.peer_gamepad_mappings pid).isSome = true) :
    ensureMapping r pid = r := by
  unfold ensureMapping; simp [h]

theorem ensureMapping_idem (r : Room) (pid : String) :
    ensureMapping (ensureMapping r pid) pid = ensureMapping r pid := by
  unfold ensureMapping
  split
  · next h => simp [h]
  · next h =>
    simp only [Option.not_isSome_iff_eq_none] at h
    have : (alookup ((ensureMapping r pid).peer_gamepad_mappings) pid).isSome = true :=
      ensureMapping_isSome r pid
    unfold ensureMapping at this
    simp only [h, Option.isSome_none, Bool.false_eq_true, if_false] at this
    simp [ensureMapping, h, this]

/-! ### C10: `Peer::close` in a terminal state -/

/-- Claim C10: `Peer::close` modifies the peer only from CONNECTING or
CONNECTED; in DISCONNECTED or FAILED it returns immediately, leaving
the sender flag, the connection, tracks and data channels untouched. -/
theorem C10_close_terminal_noop (p q : Peer)
    (h : p.state = .disconnected ∨ p.state = .failed) :
    close p = p ∧ (close q ≠ q → q.state = .connecting ∨ q.state = .connected) := by
  constructor
  · rcases h with h | h <;> simp [close, h]
  · intro hq
    by_cases h1 : q.state = .connected
    · right; exact h1
    · by_cases h2 : q.state = .connecting
      · left; exact h2
      · exact absurd (by simp [close, h1, h2]) hq

/-- Witness for C10: closing an already-FAILED peer is a no-op. -/
theorem C10_witness :
    (c10peer.state = .disconnected ∨ c10peer.state = .failed) ∧
    close c10peer = c10peer :=
  ⟨Or.inr rfl, (C10_close_terminal_noop c10peer c10peer (Or.inr rfl)).1⟩

/-! ### C8: `handle_set_quality` -/

theorem clampInt_bounds (v lo hi : Int) (h : lo ≤ hi) :
    lo ≤ clampInt v lo hi ∧ clampInt v lo hi ≤ hi := by
  unfold clampInt; split_ifs <;> omega

/-- Claim C8: `set_quality` from a non-member or non-host peer replies
with an error and leaves the encoder config unchanged; from the host
it clamps bitrate/framerate/width/height into their ranges, stores the
clamped bitrate in the encoder config, and replies `quality_updated`
with the clamped values. -/
theorem C8_set_quality_clamps (room? : Option Room) (pid : String)
    (cfg b f w h : Int) :
    (room? = none →
      handle_set_quality room? pid cfg b f w h = (cfg, .errorNotInRoom)) ∧
    (∀ r, room? = some r → pid ≠ r.host_peer_id →
      handle_set_quality room? pid cfg b f w h = (cfg, .errorNotHost)) ∧
    (∀ r, room? = some r → pid = r.host_peer_id →
      handle_set_quality room? pid cfg b f w h =
        (clampInt b 1000 150000,
         .updated (clampInt b 1000 150000) (clampInt f 30 240)
           (clampInt w 640 7680) (clampInt h 480 4320)) ∧
      1000 ≤ clampInt b 1000 150000 ∧ clampInt b 1000 150000 ≤ 150000 ∧
      30 ≤ clampInt f 30 240 ∧ clampInt f 30 240 ≤ 240 ∧
      640 ≤ clampInt w 640 7680 ∧ clampInt w 640 7680 ≤ 7680 ∧
      480 ≤ clampInt h 480 4320 ∧ clampInt h 480 4320 ≤ 4320) := by
  refine ⟨?_, ?_, ?_⟩
  · intro h0; subst h0; rfl
  · intro r hr hne; subst hr; simp [handle_set_quality, hne]
  · intro r hr he; subst hr
    refine ⟨by simp [handle_set_quality, he], ?_, ?_, ?_, ?_, ?_, ?_, ?_, ?_⟩
    · exact (clampInt_bounds b 1000 150000 (by norm_num)).1
    · exact (clampInt_bounds b 1000 150000 (by norm_num)).2
    · exact (clampInt_bounds f 30 240 (by norm_num)).1
    · exact (clampInt_bounds f 30 240 (by norm_num)).2
    · exact (clampInt_bounds w 640 7680 (by norm_num)).1
    · exact (clampInt_bounds w 640 7680 (by norm_num)).2
    · exact (clampInt_bounds h 480 4320 (by norm_num)).1
    · exact (clampInt_bounds h 480 4320 (by norm_num)).2

/-- Witness for C8: out-of-range host request gets clamped. -/
theorem C8_witness :
    "h" = (mkRoom "QUAL" "h" "A").host_peer_id ∧
    handle_set_quality (some (mkRoom "QUAL" "h" "A")) "h" 5000 500 999 99999 1 =
      (clampInt 500 1000 150000,
       .updated (clampInt 500 1000 150000) (clampInt 999 30 240)
         (clampInt 99999 640 7680) (clampInt 1 480 4320)) :=
  ⟨rfl,
   ((C8_set_quality_clamps (some (mkRoom "QUAL" "h" "A")) "h" 5000 500 999 99999 1).2.2
     (mkRoom "QUAL" "h" "A") rfl rfl).1⟩

/-! ### C5: input-router permission gates -/

/-- Claim C5: events from a peer in no room are dropped with no facade
call; keyboard (resp. mouse) events from a peer without the
corresponding permission are dropped; gamepad events from non-members
and spectators are dropped, all without any other state change. -/
theorem C5_input_permission_gate (pid : String) (r : Room)
    (kev : KeyboardEvent) (mev : MouseMoveEvent) (bev : MouseButtonEvent)
    (sev : MouseScrollEvent) (gst : GamepadState) :
    (process_keyboard none pid kev = [] ∧
     process_mouse_move none pid mev = [] ∧
     process_mouse_button none pid bev = [] ∧
     process_mouse_scroll none pid sev = [] ∧
     process_gamepad none pid gst = (none, [])) ∧
    (can_use_keyboard r pid = false → process_keyboard (some r) pid kev = []) ∧
    (can_use_mouse r pid = false →
      process_mouse_move (some r) pid mev = [] ∧
      process_mouse_button (some r) pid bev = [] ∧
      process_mouse_scroll (some r) pid sev = []) ∧
    (alookup r.players pid = none →
      process_gamepad (some r) pid gst = (some r, [])) ∧
    (∀ info, alookup r.players pid = some info → info.is_spectator = true →
      process_gamepad (some r) pid gst = (some r, [])) := by
  refine ⟨⟨rfl, rfl, rfl, rfl, rfl⟩, ?_, ?_, ?_, ?_⟩
  · intro h; simp [process_keyboard, h]
  · intro h
    exact ⟨by simp [process_mouse_move, h],
      by simp [process_mouse_button, h],
      by simp [process_mouse_scroll, h]⟩
  · intro h; simp [process_gamepad, h]
  · intro info hi hs; simp [process_gamepad, hi, hs]

/-- Witness for C5: the spectator `"s"` of `c5room` has no keyboard
permission and its keyboard and gamepad events reach no facade call. -/
theorem C5_witness :
    (can_use_keyboard c5room "s" = false ∧
     process_keyboard (some c5room) "s" ⟨10, 0, true⟩ = []) ∧
    process_gamepad (some c5room) "s" ⟨0, 0, 0, 0, 0, 0, 0, 0⟩ = (some c5room, []) :=
  ⟨⟨by decide,
    (C5_input_permission_gate "s" c5room ⟨10, 0, true⟩
      ⟨false, 0, 0, 0, 0⟩ ⟨0, false⟩ ⟨0, 0⟩ ⟨0, 0, 0, 0, 0, 0, 0, 0⟩).2.1 (by decide)⟩,
   (C5_input_permission_gate "s" c5room ⟨10, 0, true⟩
      ⟨false, 0, 0, 0, 0⟩ ⟨0, false⟩ ⟨0, 0⟩ ⟨0, 0, 0, 0, 0, 0, 0, 0⟩).2.2.2.2
     { peer_id := "s", name := "Bob", slot := 0, is_host := false,
       is_spectator := true, gamepad_ids := [],
       can_use_keyboard := false, can_use_mouse := false }
     (by decide) (by decide)⟩

/-! ### C4: `promote_to_player` -/

/-- Claim C4 (amended): promoting a spectator assigns the smallest slot
in {1..4} not used by any non-spectator, and returns `NONE` (0) iff
all four are taken; the promoted player's keyboard and mouse
permissions are left exactly as they were (the spectator defaults,
`false`) — they are *not* set from the room-wide default
permissions. -/
theorem C4_promote_semantics (r : Room) (pid : String) (info : PlayerInfo)
    (hmem : alookup r.players pid = some info)
    (hspec : info.is_spectator = true) :
    ((promote_to_player r pid).2 = 0 ↔
      slotUsed r 1 = true ∧ slotUsed r 2 = true ∧
      slotUsed r 3 = true ∧ slotUsed r 4 = true) ∧
    ((promote_to_player r pid).2 ≠ 0 →
      1 ≤ (promote_to_player r pid).2 ∧ (promote_to_player r pid).2 ≤ 4 ∧
      slotUsed r (promote_to_player r pid).2 = false ∧
      ∀ j, 1 ≤ j → j < (promote_to_player r pid).2 → slotUsed r j = true) ∧
    ((alookup (promote_to_player r pid).1.players pid).map
        (fun p => p.can_use_keyboard) = some info.can_use_keyboard) ∧
    ((alookup (promote_to_player r pid).1.players pid).map
        (fun p => p.can_use_mouse) = some info.can_use_mouse) := by
  have hslot : (promote_to_player r pid).2 = next_available_slot r ∨
      ((promote_to_player r pid) = (r, 0) ∧ next_available_slot r = 0) := by
    simp only [promote_to_player, hmem, hspec, Bool.not_true]
    by_cases h0 : next_available_slot r = 0 <;> simp [h0]
  have hna : (next_available_slot r = 0 ↔
      slotUsed r 1 = true ∧ slotUsed r 2 = true ∧
      slotUsed r 3 = true ∧ slotUsed r 4 = true) ∧
      (next_available_slot r ≠ 0 →
        1 ≤ next_available_slot r ∧ next_available_slot r ≤ 4 ∧
        slotUsed r (next_available_slot r) = false ∧
        ∀ j, 1 ≤ j → j < next_available_slot r → slotUsed r j = true) := by
    unfold next_available_slot
    split_ifs with h1 h2 h3 h4
    · refine ⟨iff_of_false (by norm_num) ?_,
        fun _ => ⟨by norm_num, by norm_num, by simpa using h1, ?_⟩⟩
      · intro hall; simp_all
      · intro j hj1 hj2; omega
    · refine ⟨iff_of_false (by norm_num) ?_,
        fun _ => ⟨by norm_num, by norm_num, by simpa using h2, ?_⟩⟩
      · intro hall; simp_all
      · intro j hj1 hj2
        have hj : j = 1 := by omega
        subst hj; simpa using h1
    · refine ⟨iff_of_false (by norm_num) ?_,
        fun _ => ⟨by norm_num, by norm_num, by simpa using h3, ?_⟩⟩
      · intro hall; simp_all
      · intro j hj1 hj2
        have hj : j = 1 ∨ j = 2 := by omega
        rcases hj with hj | hj <;> subst hj
        · simpa using h1
        · simpa using h2
    · refine ⟨iff_of_false (by norm_num) ?_,
        fun _ => ⟨by norm_num, by norm_num, by simpa using h4, ?_⟩⟩
      · intro hall; simp_all
      · intro j hj1 hj2
        have hj : j = 1 ∨ j = 2 ∨ j = 3 := by omega
        rcases hj with hj | hj | hj <;> subst hj
        · simpa using h1
        · simpa using h2
        · simpa using h3
    · exact ⟨iff_of_true rfl ⟨by simpa using h1, by simpa using h2,
        by simpa using h3, by simpa using h4⟩, fun hc => absurd rfl hc⟩
  refine ⟨?_, ?_, ?_, ?_⟩
  · rcases hslot with h | ⟨h, h0⟩
    · rw [h]; exact hna.1
    · rw [h]; simpa [h0] using hna.1
  · rcases hslot with h | ⟨h, h0⟩
    · rw [h]; exact hna.2
    · rw [h]; simp
  · simp only [promote_to_player, hmem, hspec, Bool.not_true]
    by_cases h0 : next_available_slot r = 0
    · simp [h0, hmem]
    · simp [h0, alookup_aupdate_self, hmem]
  · simp only [promote_to_player, hmem, hspec, Bool.not_true]
    by_cases h0 : next_available_slot r = 0
    · simp [h0, hmem]
    · simp [h0, alookup_aupdate_self, hmem]

/-- Claim C4 counterexample: in a fresh room (whose room-wide default
permissions are `true`), a promoted spectator keeps
`can_use_keyboard = can_use_mouse = false`, so `promote_to_player`
does *not* set the promoted player's permissions to the room-wide
defaults. -/
theorem C4_counterexample :
    (promote_to_player c4room "s").2 = 2 ∧
    c4room.default_keyboard_access = true ∧
    c4room.default_mouse_access = true ∧
    (alookup (promote_to_player c4room "s").1.players "s").map
      (fun p => p.can_use_keyboard) = some false ∧
    (alookup (promote_to_player c4room "s").1.players "s").map
      (fun p => p.can_use_mouse) = some false := by
  decide

/-- Witness for the amended C4 on the concrete room `c4room`. -/
theorem C4_witness :
    alookup c4room.players "s" = some c4info ∧
    c4info.is_spectator = true ∧
    ((alookup (promote_to_player c4room "s").1.players "s").map
      (fun p => p.can_use_keyboard) = some c4info.can_use_keyboard) ∧
    ((promote_to_player c4room "s").2 = 0 ↔
      slotUsed c4room 1 = true ∧ slotUsed c4room 2 = true ∧
      slotUsed c4room 3 = true ∧ slotUsed c4room 4 = true) :=
  ⟨by decide, by decide,
   (C4_promote_semantics c4room "s" c4info (by decide) (by decide)).2.2.1,
   (C4_promote_semantics c4room "s" c4info (by decide) (by decide)).1⟩

/-! ### `claim_gamepad` unfolding lemmas -/

theorem claim_gamepad_not_member (r : Room) (pid : String) (b : Int)
    (h : alookup r.players pid = none) :
    claim_gamepad r pid b = (r, -1) := by
  simp [claim_gamepad, h]

theorem claim_gamepad_spectator (r : Room) (pid : String) (b : Int)
    (info : PlayerInfo) (h : alookup r.players pid = some info)
    (hs : info.is_spectator = true) :
    claim_gamepad r pid b = (r, -1) := by
  simp [claim_gamepad, h, hs]

theorem claim_gamepad_member (r : Room) (pid : String) (b : Int)
    (info : PlayerInfo) (h : alookup r.players pid = some info)
    (hs : info.is_spectator = false) :
    claim_gamepad r pid b =
      (match alookup ((alookup (ensureMapping r pid).peer_gamepad_mappings pid).getD []) b with
       | some slot => (ensureMapping r pid, slot)
       | none =>
         if 16 ≤ (ensureMapping r pid).next_gamepad_slot then
           (ensureMapping r pid, -1)
         else
           (claimSuccess (ensureMapping r pid) pid b,
            (ensureMapping r pid).next_gamepad_slot)) := by
  simp only [claim_gamepad, h, hs]
  rfl

/-! ### C6: idempotence of `claim_gamepad` -/

/-- Claim C6: for a non-spectator member, calling `claim_gamepad` a
second time with the same (peer, browser-id) pair returns the same
result and leaves the room unchanged; any call by a spectator or a
non-member fails with `-1` and changes nothing; and a call for a new
pair when the 16-slot cap is reached fails with `-1`. -/
theorem C6_claim_gamepad_idempotent (r : Room) (pid : String) (b : Int) :
    (∀ info, alookup r.players pid = some info → info.is_spectator = false →
      claim_gamepad (claim_gamepad r pid b).1 pid b = claim_gamepad r pid b) ∧
    ((alookup r.players pid = none ∨
      (∃ info, alookup r.players pid = some info ∧ info.is_spectator = true)) →
      claim_gamepad r pid b = (r, -1)) ∧
    (∀ info, alookup r.players pid = some info → info.is_spectator = false →
      alookup ((alookup r.peer_gamepad_mappings pid).getD []) b = none →
      16 ≤ r.next_gamepad_slot →
      (claim_gamepad r pid b).2 = -1) := by
  refine ⟨?_, ?_, ?_⟩
  · intro info h hs
    have hEp : (ensureMapping r pid).players = r.players := ensureMapping_players r pid
    have hEidem : ensureMapping (ensureMapping r pid) pid = ensureMapping r pid :=
      ensureMapping_idem r pid
    cases hm : alookup ((alookup (ensureMapping r pid).peer_gamepad_mappings pid).getD []) b with
    | some slot =>
      have hfirst : claim_gamepad r pid b = (ensureMapping r pid, slot) := by
        rw [claim_gamepad_member r pid b info h hs, hm]
      rw [hfirst]
      rw [claim_gamepad_member (ensureMapping r pid) pid b info (by rw [hEp]; exact h) hs]
      simp [hEidem, hm]
    | none =>
      by_cases hcap : 16 ≤ (ensureMapping r pid).next_gamepad_slot
      · have hfirst : claim_gamepad r pid b = (ensureMapping r pid, -1) := by
          rw [claim_gamepad_member r pid b info h hs, hm]
          simp [hcap]
        rw [hfirst]
        rw [claim_gamepad_member (ensureMapping r pid) pid b info (by rw [hEp]; exact h) hs]
        simp [hEidem, hm, hcap]
      · have hfirst : claim_gamepad r pid b =
            (claimSuccess (ensureMapping r pid) pid b,
             (ensureMapping r pid).next_gamepad_slot) := by
          rw [claim_gamepad_member r pid b info h hs, hm]
          simp [hcap]
        rw [hfirst]
        dsimp only
        obtain ⟨m0, hm0⟩ := Option.isSome_iff_exists.mp (ensureMapping_isSome r pid)
        have hplayers : alookup (claimSuccess (ensureMapping r pid) pid b).players pid =
            some { info with gamepad_ids :=
              info.gamepad_ids ++ [(ensureMapping r pid).next_gamepad_slot] } := by
          show alookup (aupdate (ensureMapping r pid).players pid _) pid = _
          rw [alookup_aupdate_self, hEp, h]
          rfl
        have hmap2 : alookup (claimSuccess (ensureMapping r pid) pid b).peer_gamepad_mappings pid =
            some (ainsert m0 b (ensureMapping r pid).next_gamepad_slot) := by
          show alookup (aupdate (ensureMapping r pid).peer_gamepad_mappings pid _) pid = _
          rw [alookup_aupdate_self, hm0]
          rfl
        rw [claim_gamepad_member (claimSuccess (ensureMapping r pid) pid b) pid b _ hplayers
          (by simpa using hs)]
        have hens2 : ensureMapping (claimSuccess (ensureMapping r pid) pid b) pid =
            claimSuccess (ensureMapping r pid) pid b :=
          ensureMapping_of_isSome _ pid (by rw [hmap2]; rfl)
        rw [hens2, hmap2]
        simp [alookup_ainsert_self]
  · rintro (h | ⟨info, h, hs⟩)
    · exact claim_gamepad_not_member r pid b h
    · exact claim_gamepad_spectator r pid b info h hs
  · intro info h hs hfresh hcap
    rw [claim_gamepad_member r pid b info h hs]
    rw [ensureMapping_getD, hfresh]
    simp only
    rw [if_pos (by rw [ensureMapping_next]; exact hcap)]

/-- Witness for C6: claiming browser gamepad 0 twice for the host of a
fresh room yields slot 0 twice with no further state change. -/
theorem C6_witness :
    alookup (mkRoom "GPACLM" "h" "A").players "h" =
      some { peer_id := "h", name := "A", slot := 1, is_host := true,
             is_spectator := false, gamepad_ids := [],
             can_use_keyboard := true, can_use_mouse := true } ∧
    claim_gamepad (claim_gamepad (mkRoom "GPACLM" "h" "A") "h" 0).1 "h" 0 =
      claim_gamepad (mkRoom "GPACLM" "h" "A") "h" 0 :=
  ⟨by decide,
   (C6_claim_gamepad_idempotent (mkRoom "GPACLM" "h" "A") "h" 0).1
     { peer_id := "h", name := "A", slot := 1, is_host := true,
       is_spectator := false, gamepad_ids := [],
       can_use_keyboard := true, can_use_mouse := true }
     (by decide) (by decide)⟩

/-! ### C9: the gamepad slot counter only increases -/

/-- Claim C9: `release_gamepad` never touches `next_gamepad_slot_`;
`claim_gamepad` never decreases it; once it has reached 16, every
claim for a not-yet-mapped (peer, browser-id) pair fails (even if all
previously claimed slots were released); and a successful fresh claim
returns exactly the current counter value and bumps the counter, so a
released slot number is never handed out again. -/
theorem C9_gamepad_counter_monotone (r : Room) (pid : String) (b s sl : Int) :
    (release_gamepad r pid sl).next_gamepad_slot = r.next_gamepad_slot ∧
    r.next_gamepad_slot ≤ (claim_gamepad r pid b).1.next_gamepad_slot ∧
    (16 ≤ r.next_gamepad_slot →
      alookup ((alookup r.peer_gamepad_mappings pid).getD []) b = none →
      (claim_gamepad r pid b).2 = -1) ∧
    (alookup ((alookup r.peer_gamepad_mappings pid).getD []) b = none →
      (claim_gamepad r pid b).2 = s → 0 ≤ s →
      s = r.next_gamepad_slot ∧
      (claim_gamepad r pid b).1.next_gamepad_slot = r.next_gamepad_slot + 1) := by
  refine ⟨?_, ?_, ?_, ?_⟩
  · unfold release_gamepad
    cases ho : alookup r.gamepad_slot_owners sl with
    | none => rfl
    | some owner =>
      by_cases hw : owner = pid <;> simp [hw]
  · cases h : alookup r.players pid with
    | none => rw [claim_gamepad_not_member r pid b h]
    | some info =>
      by_cases hsp : info.is_spectator = true
      · rw [claim_gamepad_spectator r pid b info h hsp]
      · rw [claim_gamepad_member r pid b info h (by simpa using hsp)]
        cases hm : alookup ((alookup (ensureMapping r pid).peer_gamepad_mappings pid).getD []) b with
        | some slot =>
          dsimp only
          rw [ensureMapping_next]
        | none =>
          dsimp only
          split_ifs with hcap
          · dsimp only; rw [ensureMapping_next]
          · dsimp only
            have : (claimSuccess (ensureMapping r pid) pid b).next_gamepad_slot =
                (ensureMapping r pid).next_gamepad_slot + 1 := rfl
            rw [this, ensureMapping_next]
            omega
  · intro hcap hfresh
    cases h : alookup r.players pid with
    | none => rw [claim_gamepad_not_member r pid b h]
    | some info =>
      by_cases hsp : info.is_spectator = true
      · rw [claim_gamepad_spectator r pid b info h hsp]
      · rw [claim_gamepad_member r pid b info h (by simpa using hsp)]
        rw [ensureMapping_getD, hfresh]
        simp only
        rw [if_pos (by rw [ensureMapping_next]; exact hcap)]
  · intro hfresh hres hpos
    cases h : alookup r.players pid with
    | none =>
      rw [claim_gamepad_not_member r pid b h] at hres
      simp at hres
      omega
    | some info =>
      by_cases hsp : info.is_spectator = true
      · rw [claim_gamepad_spectator r pid b info h hsp] at hres
        simp at hres
        omega
      · rw [claim_gamepad_member r pid b info h (by simpa using hsp)] at hres ⊢
        rw [ensureMapping_getD, hfresh] at hres ⊢
        simp only at hres ⊢
        by_cases hcap : 16 ≤ (ensureMapping r pid).next_gamepad_slot
        · rw [if_pos hcap] at hres
          simp at hres
          omega
        · rw [if_neg hcap] at hres ⊢
          dsimp only at hres ⊢
          rw [ensureMapping_next] at hres
          refine ⟨hres.symm, ?_⟩
          have : (claimSuccess (ensureMapping r pid) pid b).next_gamepad_slot =
              (ensureMapping r pid).next_gamepad_slot + 1 := rfl
          rw [this, ensureMapping_next]

/-- Witness for C9 on a fresh room with its host. -/
theorem C9_witness :
    (release_gamepad (mkRoom "GPCTRS" "h" "A") "h" 0).next_gamepad_slot =
      (mkRoom "GPCTRS" "h" "A").next_gamepad_slot ∧
    alookup ((alookup (mkRoom "GPCTRS" "h" "A").peer_gamepad_mappings "h").getD []) 0 = none ∧
    (claim_gamepad (mkRoom "GPCTRS" "h" "A") "h" 0).2 = 0 ∧
    (0 : Int) = (mkRoom "GPCTRS" "h" "A").next_gamepad_slot ∧
    (claim_gamepad (mkRoom "GPCTRS" "h" "A") "h" 0).1.next_gamepad_slot =
      (mkRoom "GPCTRS" "h" "A").next_gamepad_slot + 1 :=
  ⟨(C9_gamepad_counter_monotone (mkRoom "GPCTRS" "h" "A") "h" 0 0 0).1,
   by decide, by decide,
   ((C9_gamepad_counter_monotone (mkRoom "GPCTRS" "h" "A") "h" 0 0 0).2.2.2
     (by decide) (by decide) (by decide)).1,
   ((C9_gamepad_counter_monotone (mkRoom "GPCTRS" "h" "A") "h" 0 0 0).2.2.2
     (by decide) (by decide) (by decide)).2⟩

/-! ### C7: the host invariant -/

theorem hostOk_init (code hostId hostName : String) :
    HostOk (mkRoom code hostId hostName) :=
  ⟨{ peer_id := hostId, name := hostName, slot := 1, is_host := true,
     is_spectator := false, gamepad_ids := [], can_use_keyboard := true,
     can_use_mouse := true },
   by simp [mkRoom, alookup], rfl, rfl, rfl⟩

/-- Invariant `HostOk` survives any in-place update of a player entry that keeps
the `is_host` and permission fields. -/
theorem hostOk_aupdate_preserve (r : Room) (pid : String)
    (f : PlayerInfo → PlayerInfo)
    (hf : ∀ p, (f p).is_host = p.is_host ∧
      (f p).can_use_keyboard = p.can_use_keyboard ∧
      (f p).can_use_mouse = p.can_use_mouse)
    (h : HostOk r) (r' : Room)
    (hp : r'.players = aupdate r.players pid f)
    (hh : r'.host_peer_id = r.host_peer_id) : HostOk r' := by
  obtain ⟨info, hi, h1, h2, h3⟩ := h
  by_cases hpid : pid = r.host_peer_id
  · subst hpid
    refine ⟨f info, ?_, ?_, ?_, ?_⟩
    · rw [hp, hh, alookup_aupdate_self, hi]; rfl
    · rw [(hf info).1, h1]
    · rw [(hf info).2.1, h2]
    · rw [(hf info).2.2, h3]
  · refine ⟨info, ?_, h1, h2, h3⟩
    rw [hp, hh, alookup_aupdate_ne _ _ _ _ (fun hq => hpid hq.symm)]
    exact hi

theorem hostOk_step (r : Room) (op : RoomOp) (h : HostOk r)
    (hk : opKeepsRoom r op) : HostOk (applyOp r op) := by
  obtain ⟨info, hi, h1, h2, h3⟩ := h
  cases op with
  | addSpectator pid n =>
    simp only [applyOp, add_spectator]
    by_cases hp1 : (alookup r.players pid).isSome = true
    · rw [if_pos hp1]
      exact ⟨info, hi, h1, h2, h3⟩
    · rw [if_neg hp1]
      by_cases hp2 : 16 ≤ r.peers.length
      · rw [if_pos hp2]
        exact ⟨info, hi, h1, h2, h3⟩
      · rw [if_neg hp2]
        refine ⟨info, ?_, h1, h2, h3⟩
        show alookup (ainsert r.players pid _) r.host_peer_id = some info
        have hne : r.host_peer_id ≠ pid := by
          intro hq
          rw [← hq] at hp1
          rw [hi] at hp1
          exact hp1 rfl
        rw [alookup_ainsert_ne _ _ _ _ hne]
        exact hi
  | promote pid =>
    simp only [applyOp, promote_to_player]
    cases hp : alookup r.players pid with
    | none => exact ⟨info, hi, h1, h2, h3⟩
    | some pinfo =>
      dsimp only
      split_ifs with hb hz
      · exact ⟨info, hi, h1, h2, h3⟩
      · exact ⟨info, hi, h1, h2, h3⟩
      · exact hostOk_aupdate_preserve r pid
          (fun p => { p with slot := next_available_slot r, is_spectator := false })
          (fun p => ⟨rfl, rfl, rfl⟩) ⟨info, hi, h1, h2, h3⟩ _ rfl rfl
  | removePeer pid =>
    simp only [applyOp]
    simp only [opKeepsRoom] at hk
    cases hp : alookup r.players pid with
    | none =>
      simp only [remove_peer, hp]
      exact ⟨info, hi, h1, h2, h3⟩
    | some pinfo =>
      simp only [remove_peer, hp] at hk ⊢
      have hne : r.host_peer_id ≠ pid := by
        intro hq
        rw [← hq] at hp
        rw [hi] at hp
        injection hp with hq2
        rw [hq2] at h1
        rw [h1] at hk
        exact Bool.true_eq_false.mp hk
      refine ⟨info, ?_, h1, h2, h3⟩
      show alookup (aerase r.players pid) r.host_peer_id = some info
      rw [alookup_aerase_ne _ _ _ hne]
      exact hi
  | claim pid b =>
    simp only [applyOp]
    cases hp : alookup r.players pid with
    | none =>
      rw [claim_gamepad_not_member r pid b hp]
      exact ⟨info, hi, h1, h2, h3⟩
    | some pinfo =>
      by_cases hsp : pinfo.is_spectator = true
      · rw [claim_gamepad_spectator r pid b pinfo hp hsp]
        exact ⟨info, hi, h1, h2, h3⟩
      · rw [claim_gamepad_member r pid b pinfo hp (by simpa using hsp)]
        have hE : HostOk (ensureMapping r pid) := by
          refine ⟨info, ?_, h1, h2, h3⟩
          rw [ensureMapping_players, ensureMapping_host]
          exact hi
        cases hm : alookup ((alookup (ensureMapping r pid).peer_gamepad_mappings pid).getD []) b with
        | some slot => exact hE
        | none =>
          dsimp only
          split_ifs with hcap
          · exact hE
          · exact hostOk_aupdate_preserve (ensureMapping r pid) pid
              (fun p => { p with gamepad_ids :=
                p.gamepad_ids ++ [(ensureMapping r pid).next_gamepad_slot] })
              (fun p => ⟨rfl, rfl, rfl⟩) hE _ rfl rfl
  | release pid sl =>
    simp only [applyOp, release_gamepad]
    cases ho : alookup r.gamepad_slot_owners sl with
    | none => exact ⟨info, hi, h1, h2, h3⟩
    | some owner =>
      dsimp only
      split_ifs with hw
      · exact ⟨info, hi, h1, h2, h3⟩
      · exact hostOk_aupdate_preserve r pid
          (fun p => { p with gamepad_ids := p.gamepad_ids.filter (fun s => s ≠ sl) })
          (fun p => ⟨rfl, rfl, rfl⟩) ⟨info, hi, h1, h2, h3⟩ _ rfl rfl
  | setKeyboard pid e =>
    simp only [applyOp, set_keyboard_access]
    cases hp : alookup r.players pid with
    | none => exact ⟨info, hi, h1, h2, h3⟩
    | some pinfo =>
      dsimp only
      split_ifs with hhost
      · exact ⟨info, hi, h1, h2, h3⟩
      · have hne : r.host_peer_id ≠ pid := by
          intro hq
          rw [← hq] at hp
          rw [hi] at hp
          injection hp with hq2
          rw [hq2] at h1
          exact hhost h1
        refine ⟨info, ?_, h1, h2, h3⟩
        show alookup (aupdate r.players pid _) r.host_peer_id = some info
        rw [alookup_aupdate_ne _ _ _ _ hne]
        exact hi
  | setMouse pid e =>
    simp only [applyOp, set_mouse_access]
    cases hp : alookup r.players pid with
    | none => exact ⟨info, hi, h1, h2, h3⟩
    | some pinfo =>
      dsimp only
      split_ifs with hhost
      · exact ⟨info, hi, h1, h2, h3⟩
      · have hne : r.host_peer_id ≠ pid := by
          intro hq
          rw [← hq] at hp
          rw [hi] at hp
          injection hp with hq2
          rw [hq2] at h1
          exact hhost h1
        refine ⟨info, ?_, h1, h2, h3⟩
        show alookup (aupdate r.players pid _) r.host_peer_id = some info
        rw [alookup_aupdate_ne _ _ _ _ hne]
        exact hi

theorem hostOk_reachable (r : Room) (h : Reachable r) : HostOk r := by
  induction h with
  | init code hostId hostName => exact hostOk_init code hostId hostName
  | step r op hr hk ih => exact hostOk_step r op ih hk

/-- Claim C7: in every reachable room state, the host is a member with
`is_host = true` and both input permissions `true`; in particular
`set_keyboard_access` / `set_mouse_access` targeting the host return
`true` without changing the room.  (Reachable states are those during
the room's lifetime: `remove_peer` of the host returns `true`, upon
which the registry destroys the room, ending the lifetime.) -/
theorem C7_host_invariant (r : Room) (hr : Reachable r) :
    HostOk r ∧
    (∀ en, set_keyboard_access r r.host_peer_id en = (r, true)) ∧
    (∀ en, set_mouse_access r r.host_peer_id en = (r, true)) := by
  obtain ⟨info, hi, h1, h2, h3⟩ := hostOk_reachable r hr
  refine ⟨⟨info, hi, h1, h2, h3⟩, ?_, ?_⟩
  · intro en; simp [set_keyboard_access, hi, h1]
  · intro en; simp [set_mouse_access, hi, h1]

/-- Witness for C7 at the constructor state. -/
theorem C7_witness :
    Reachable (mkRoom "HOSTOK" "h" "Alice") ∧
    HostOk (mkRoom "HOSTOK" "h" "Alice") ∧
    (∀ en, set_keyboard_access (mkRoom "HOSTOK" "h" "Alice")
      (mkRoom "HOSTOK" "h" "Alice").host_peer_id en =
      (mkRoom "HOSTOK" "h" "Alice", true)) ∧
    (∀ en, set_mouse_access (mkRoom "HOSTOK" "h" "Alice")
      (mkRoom "HOSTOK" "h" "Alice").host_peer_id en =
      (mkRoom "HOSTOK" "h" "Alice", true)) :=
  ⟨Reachable.init "HOSTOK" "h" "Alice",
   (C7_host_invariant _ (Reachable.init "HOSTOK" "h" "Alice")).1,
   (C7_host_invariant _ (Reachable.init "HOSTOK" "h" "Alice")).2.1,
   (C7_host_invariant _ (Reachable.init "HOSTOK" "h" "Alice")).2.2⟩

end Sunshine
